import Mathlib

/-!
Verification development for the camera-pricer bot
(`src/camera_pricer_bot.py`).

Numbers are embedded as exact rationals (`ℚ`): the Python source computes
with floats but every claim under scrutiny concerns values (prices,
rates, percentages) at which the arithmetic is exact, and the host
rounding primitive (`round`, banker's rounding) is embedded exactly.
Python dicts are embedded as association lists in insertion order, which
is the iteration order Python guarantees.
-/

attribute [local semireducible] Rat.mul Rat.add Rat.sub Rat.inv Rat.ofScientific

namespace CameraPricerBot

/-- `10 ^ n` for an integer `n`, as a rational. -/
def pow10 (n : ℤ) : ℚ :=
  if 0 ≤ n then ((10 : ℚ)) ^ n.toNat else (((10 : ℚ)) ^ (-n).toNat)⁻¹

/-- Round a rational to the nearest integer, ties to the even integer:
the behaviour of Python's builtin `round` on an exact value
(round-half-to-even, "banker's rounding"). -/
def roundHalfEven (x : ℚ) : ℤ :=
  let f := x.floor
  let frac := x - f
  if frac < 1 / 2 then f
  else if 1 / 2 < frac then f + 1
  else if f % 2 = 0 then f else f + 1

/-- Python's two-argument `round(x, ndigits)` on an exact value:
scale by `10 ^ ndigits`, round half-to-even to an integer, scale back.
A negative `ndigits` hence rounds to the nearest `10 ^ (-ndigits)`
(e.g. `ndigits = -6` rounds to the nearest million). -/
def pyRound (x : ℚ) (ndigits : ℤ) : ℚ :=
  (roundHalfEven (x * pow10 ndigits) : ℚ) / pow10 ndigits

/-- The settings record (`DEFAULT_SETTINGS` shape, src lines 80–85):
dirham conversion rate, base markup, markup percentages (as fractions),
and the rounding granularity passed to `round`. -/
structure Settings where
  dirham_rate : ℚ
  base_markup : ℚ
  percentages : List ℚ
  round_to : ℤ
deriving DecidableEq, Repr

/-- `DEFAULT_SETTINGS` (src lines 80–85). -/
def DEFAULT_SETTINGS : Settings :=
  { dirham_rate := 3.67
    base_markup := 20000000
    percentages := [0.03, 0.04, 0.05, 0.06, 0.10]
    round_to := -6 }

/-- A catalog: Python dict from item name to base price, embedded as an
association list in insertion order. -/
abbrev Catalog : Type := List (String × ℚ)

/-- `DEFAULT_PRODUCTS` (src lines 68–78). -/
def DEFAULT_PRODUCTS : Catalog :=
  [("R6 II BODY", 1610), ("R7 18-150", 1190), ("RP 24-105", 860),
   ("R10 18-150", 960), ("R8 24-50", 1080), ("R50 18-45", 600),
   ("A7 M4 BODY", 1650), ("A7iii Body", 1050), ("6400 16-50", 710)]

/-- One output row of the pricing engine: item name, base price, and the
list of (percentage, rounded tier price) pairs. -/
abbrev Row : Type := String × ℚ × List (ℚ × ℚ)

/-- The numeric content of `format_price_table` (src lines 223–243): for
each catalog item, `price = base_price * dirham_rate * rate + base_markup`
(line 224), and for each percentage `pct` in order the tier value
`round(price * (1 + pct), round_to)` (lines 230–232). Rows are in catalog
iteration order, tiers in `settings.percentages` order. -/
def price_rows (products : Catalog) (settings : Settings) (rate : ℚ) :
    List Row :=
  products.map (fun item =>
    let price := item.2 * settings.dirham_rate * rate + settings.base_markup
    (item.1, item.2,
      settings.percentages.map (fun pct =>
        (pct, pyRound (price * (1 + pct)) settings.round_to))))

/-- `format_price_table` (src lines 209–247): the full output consists of
the numeric rows (presentation markup elided) together with the timestamp
footer appended at src line 245 from `datetime.now()`. The embedding is
pure, so the clock reading `now` is passed explicitly. -/
def format_price_table (now : String) (products : Catalog)
    (settings : Settings) (rate : ℚ) : List Row × String :=
  (price_rows products settings rate, now)

/-- Python's notion of whitespace for `str.strip()` / `float()`. -/
def pyIsSpace (c : Char) : Bool :=
  c = ' ' || c = '\t' || c = '\n' || c = '\r'
    || c = Char.ofNat 11 || c = Char.ofNat 12

/-- Python `str.strip()`: remove leading and trailing whitespace. -/
def trimChars (cs : List Char) : List Char :=
  ((cs.dropWhile pyIsSpace).reverse.dropWhile pyIsSpace).reverse

/-- Python `str.split(sep)` for a one-character separator: splitting the
empty string gives `[""]`, adjacent separators give empty pieces. -/
def splitOnChar (sep : Char) : List Char → List (List Char)
  | [] => [[]]
  | c :: cs =>
      match splitOnChar sep cs, c == sep with
      | r, true => [] :: r
      | [], false => [[c]]
      | h :: t, false => (c :: h) :: t

/-- Python `str.replace(c, "")`: remove every occurrence of a character. -/
def removeChar (c : Char) (cs : List Char) : List Char :=
  cs.filter (fun x => x != c)

/-- Nonempty all-digit character list (ASCII digits). -/
def isDigitStr (cs : List Char) : Bool :=
  !cs.isEmpty && cs.all Char.isDigit

/-- Numeric value of a list of ASCII digits. -/
def digitsToNat (cs : List Char) : ℕ :=
  cs.foldl (fun a c => 10 * a + (c.toNat - 48)) 0

/-- Mantissa of a Python float literal: digits with at most one decimal
point and at least one digit (`"1"`, `"1.5"`, `".5"`, `"1."`). -/
def parseMantissa (s : List Char) : Option ℚ :=
  match splitOnChar '.' s with
  | [a] => if isDigitStr a then some ((digitsToNat a : ℚ)) else none
  | [a, b] =>
      if !(a ++ b).isEmpty && (a ++ b).all Char.isDigit then
        some ((digitsToNat a : ℚ) + (digitsToNat b : ℚ) / (10 : ℚ) ^ b.length)
      else none
  | _ => none

/-- Exponent of a Python float literal: optionally signed digits. -/
def parseExponent (s : List Char) : Option ℤ :=
  match s with
  | '-' :: ds => if isDigitStr ds then some (-(digitsToNat ds : ℤ)) else none
  | '+' :: ds => if isDigitStr ds then some ((digitsToNat ds : ℤ)) else none
  | ds => if isDigitStr ds then some ((digitsToNat ds : ℤ)) else none

/-- Python's builtin `float(s)` on decimal notation, as an exact rational:
surrounding whitespace is ignored, then an optional sign, then a digit
mantissa with at most one `.`, then an optional `e`/`E` exponent.
`none` models the `ValueError` raised on anything else. (The `inf`/`nan`
words and underscore digit separators that `float` also accepts play no
role in any claim and are not modelled.) -/
def pyFloatChars (s : List Char) : Option ℚ :=
  let t := trimChars s
  let sgn : ℚ := if t.head? = some '-' then -1 else 1
  let body := if t.head? = some '-' || t.head? = some '+' then t.tail else t
  let body := body.map Char.toLower
  match splitOnChar 'e' body with
  | [m] => (parseMantissa m).map (fun v => sgn * v)
  | [m, e] =>
      match parseMantissa m, parseExponent e with
      | some mv, some ev => some (sgn * mv * pow10 ev)
      | _, _ => none
  | _ => none

/-- `float` applied to a Lean string. -/
def pyFloat (s : String) : Option ℚ :=
  pyFloatChars s.toList

/-- Python dict assignment `m[k] = v` on an insertion-ordered dict: an
existing key keeps its position, a new key is appended. -/
def dictSet (m : Catalog) (k : String) (v : ℚ) : Catalog :=
  if (m.lookup k).isSome then
    m.map (fun kv => if kv.1 = k then (k, v) else kv)
  else m ++ [(k, v)]

/-- Python dict deletion `del m[k]`. -/
def dictDel (m : Catalog) (k : String) : Catalog :=
  m.filter (fun kv => kv.1 != k)

/-- The users record (`users.json` shape, src line 119): the allowed and
admin id lists. -/
structure Users where
  allowed : List ℤ
  admins : List ℤ
deriving DecidableEq, Repr

/-- `is_allowed` (src lines 125–127). -/
def is_allowed (users : Users) (user_id : ℤ) : Bool :=
  users.allowed.contains user_id || users.admins.contains user_id

/-- `is_admin` (src lines 129–131). -/
def is_admin (users : Users) (user_id : ℤ) : Bool :=
  users.admins.contains user_id

/-- Outcome of `/removeuser` for a parsed target id. -/
inductive RemoveReply
  | adminNotRemovable
  | userNotFound
  | removed (uid : ℤ)
deriving DecidableEq, Repr

/-- `remove_user_cmd` (src lines 422–450), after the caller-is-admin check
and the parse of the id argument: an id in the admin list is rejected
("ادمین قابل حذف نیست"), an id missing from the allowed list reports
not found, otherwise the first occurrence is removed and saved. -/
def remove_user_cmd (users : Users) (uid : ℤ) : Users × RemoveReply :=
  if users.admins.contains uid then (users, .adminNotRemovable)
  else if !(users.allowed.contains uid) then (users, .userNotFound)
  else ({ users with allowed := users.allowed.erase uid }, .removed uid)

/-- Outcome of the `del_<name>` callback branch. -/
inductive DeleteReply
  | deleted (name : String)
  | silent
deriving DecidableEq, Repr

/-- The `del_` branch of `handle_callback` (src lines 560–580): when the
name is a catalog key it is deleted, saved, and a success toast is
answered; when it is not, the branch has no else — nothing is replied and
nothing changes. -/
def handle_callback_del (products : Catalog) (product_name : String) :
    Catalog × DeleteReply :=
  if (products.lookup product_name).isSome then
    (dictDel products product_name, .deleted product_name)
  else (products, .silent)

/-- Conversation state of one requester: the `user_states` string tag
(src line 203; absent key = idle, `"adding_product"`,
`"editing_<name>"`, `"setting_dirham"`, `"setting_markup"`,
`"setting_percentages"`). -/
inductive UserState
  | idle
  | adding_product
  | editing (product_name : String)
  | setting_dirham
  | setting_markup
  | setting_percentages
deriving DecidableEq, Repr

/-- The reply sent by `handle_all_messages`, with presentation text
abstracted to its kind and numeric content. -/
inductive Reply
  | usePipeFormat
  | priceMustBeNumber
  | enterNumber
  | percentagesExample
  | productAdded (name : String) (price : ℚ)
  | productEdited (name : String) (oldPrice newPrice : ℚ)
  | dirhamChanged (oldRate newRate : ℚ)
  | markupChanged (oldMarkup newMarkup : ℚ)
  | percentagesChanged (ps : List ℚ)
  | noProducts
  | priceTable (rows : List Row)
  | sendRateHint
  | silent
deriving DecidableEq, Repr

/-- The two records `handle_all_messages` reads and writes through the
record store: the catalog and the settings. -/
structure Store where
  products : Catalog
  settings : Settings
deriving DecidableEq, Repr

/-- `handle_all_messages` (src lines 650–772), after the `is_allowed`
guard: one free-text message from an allowed requester, dispatched on the
requester's conversation state (src line 659). Returns the records after
the step, the requester's new conversation state, and the reply. -/
def handle_all_messages (store : Store) (state : UserState)
    (msgText : String) : Store × UserState × Reply :=
  let text := trimChars msgText.toList
  match state with
  | .adding_product =>
      if !text.contains '|' then (store, state, .usePipeFormat)
      else
        match splitOnChar '|' text with
        | [name, price] =>
            match pyFloatChars price with
            | some p =>
                let name := String.mk (trimChars name)
                ({ store with products := dictSet store.products name p },
                 .idle, .productAdded name p)
            | none => (store, state, .priceMustBeNumber)
        | _ => (store, state, .priceMustBeNumber)
  | .editing product_name =>
      match pyFloatChars (removeChar ',' text) with
      | none => (store, state, .priceMustBeNumber)
      | some newPrice =>
          match store.products.lookup product_name with
          | some oldPrice =>
              ({ store with
                  products := dictSet store.products product_name newPrice },
               .idle, .productEdited product_name oldPrice newPrice)
          | none => (store, state, .silent)
  | .setting_dirham =>
      match pyFloatChars text with
      | none => (store, state, .enterNumber)
      | some v =>
          ({ store with settings := { store.settings with dirham_rate := v } },
           .idle, .dirhamChanged store.settings.dirham_rate v)
  | .setting_markup =>
      match pyFloatChars (removeChar ',' text) with
      | none => (store, state, .enterNumber)
      | some v =>
          ({ store with settings := { store.settings with base_markup := v } },
           .idle, .markupChanged store.settings.base_markup v)
  | .setting_percentages =>
      match (splitOnChar ',' text).mapM
          (fun p => pyFloatChars (removeChar '%' (trimChars p))) with
      | none => (store, state, .percentagesExample)
      | some vs =>
          let ps := vs.map (fun v => v / 100)
          ({ store with settings := { store.settings with percentages := ps } },
           .idle, .percentagesChanged ps)
  | .idle =>
      match pyFloatChars (removeChar ',' text) with
      | none => (store, .idle, .sendRateHint)
      | some rate =>
          if store.products.isEmpty then (store, .idle, .noProducts)
          else
            (store, .idle,
             .priceTable (price_rows store.products store.settings rate))

/-- A Python JSON-like value, with every mutable container (dict or list)
carrying the address of its backing object, so that sharing of mutable
structure between two values is observable in the embedding. -/
inductive PyObj
  | num (q : ℚ)
  | str (s : String)
  | list (addr : ℕ) (elems : List PyObj)
  | dict (addr : ℕ) (entries : List (String × PyObj))

/-- Python's shallow copy (`dict.copy()` / `list[:]`): the top-level
container is a fresh object, its elements are the same objects. -/
def shallowCopy (fresh : ℕ) : PyObj → PyObj
  | .list _ elems => .list fresh elems
  | .dict _ entries => .dict fresh entries
  | x => x

mutual

/-- Addresses of all mutable objects reachable from a value. -/
def addrs : PyObj → List ℕ
  | .num _ => []
  | .str _ => []
  | .list a elems => a :: addrsList elems
  | .dict a entries => a :: addrsEntries entries

/-- Addresses reachable from a list of values. -/
def addrsList : List PyObj → List ℕ
  | [] => []
  | x :: xs => addrs x ++ addrsList xs

/-- Addresses reachable from dict entries. -/
def addrsEntries : List (String × PyObj) → List ℕ
  | [] => []
  | kv :: xs => addrs kv.2 ++ addrsEntries xs

end

/-- Two values share mutable structure when some mutable object is
reachable from both. -/
def sharesMutable (a b : PyObj) : Bool :=
  (addrs a).any (fun x => (addrs b).contains x)

/-- `load_json` (src lines 88–95): `stored` is the outcome of reading and
parsing the file — `some v` when it exists and parses, `none` when it is
missing or malformed (the exception is caught and logged, not raised).
In the default branch the source returns `default.copy()` for a dict and
`default[:]` for a list: both are shallow copies, modelled by
`shallowCopy` at a fresh address. -/
def load_json (stored : Option PyObj) (default : PyObj) (fresh : ℕ) : PyObj :=
  match stored with
  | some v => v
  | none => shallowCopy fresh default

/-- `DEFAULT_SETTINGS` as the stored Python object: a dict (one mutable
object) whose `percentages` value is a list (a second mutable object). -/
def DEFAULT_SETTINGS_obj : PyObj :=
  .dict 0
    [("dirham_rate", .num 3.67),
     ("base_markup", .num 20000000),
     ("percentages",
        .list 1 [.num 0.03, .num 0.04, .num 0.05, .num 0.06, .num 0.10]),
     ("round_to", .num (-6))]

/-- Total number of tier entries in a pricing table. -/
def tierCount (rows : List Row) : ℕ :=
  (rows.map (fun row => row.2.2.length)).sum

/-- Is the reply one of the handler's parse-failure error messages? -/
def Reply.isParseError : Reply → Bool
  | .usePipeFormat => true
  | .priceMustBeNumber => true
  | .enterNumber => true
  | .percentagesExample => true
  | _ => false

/-- The message parses as the value expected in the given pending state:
`name | price` with a numeric price for adding, and the state's numeric
parse (exactly the expression `handle_all_messages` applies) for the
editing and setting states. -/
def stepParses (state : UserState) (msg : String) : Prop :=
  match state with
  | .idle => False
  | .adding_product => ∃ name price p,
      splitOnChar '|' (trimChars msg.toList) = [name, price]
      ∧ pyFloatChars price = some p
  | .editing _ => ∃ v,
      pyFloatChars (removeChar ',' (trimChars msg.toList)) = some v
  | .setting_dirham => ∃ v, pyFloatChars (trimChars msg.toList) = some v
  | .setting_markup => ∃ v,
      pyFloatChars (removeChar ',' (trimChars msg.toList)) = some v
  | .setting_percentages => ∃ vs,
      (splitOnChar ',' (trimChars msg.toList)).mapM
        (fun p => pyFloatChars (removeChar '%' (trimChars p))) = some vs

/-- The records after the step reflect exactly the mutation the pending
state calls for, applied to the parsed value of the message: the new or
edited catalog entry, or the overwritten settings field. -/
def persistedStep (store store' : Store) (state : UserState)
    (msg : String) : Prop :=
  match state with
  | .idle => False
  | .adding_product => ∃ name price p,
      splitOnChar '|' (trimChars msg.toList) = [name, price]
      ∧ pyFloatChars price = some p
      ∧ store' = { store with
          products := dictSet store.products (String.mk (trimChars name)) p }
  | .editing n => ∃ v,
      pyFloatChars (removeChar ',' (trimChars msg.toList)) = some v
      ∧ store' = { store with products := dictSet store.products n v }
  | .setting_dirham => ∃ v,
      pyFloatChars (trimChars msg.toList) = some v
      ∧ store' = { store with
          settings := { store.settings with dirham_rate := v } }
  | .setting_markup => ∃ v,
      pyFloatChars (removeChar ',' (trimChars msg.toList)) = some v
      ∧ store' = { store with
          settings := { store.settings with base_markup := v } }
  | .setting_percentages => ∃ vs,
      (splitOnChar ',' (trimChars msg.toList)).mapM
        (fun p => pyFloatChars (removeChar '%' (trimChars p))) = some vs
      ∧ store' = { store with settings :=
          { store.settings with percentages := vs.map (fun v => v / 100) } }

example : pyFloat "123" = some 123 := by decide
example : pyFloat " 58,500 " = none := by decide
example : pyFloat "58500" = some 58500 := by decide
example : pyFloat "3.67" = some (367/100) := by decide
example : pyFloat "-1.5e2" = some (-150) := by decide
example : pyFloat "abc" = none := by decide
example : pyFloat "" = none := by decide
example : pyRound 42713585 (-6) = 43000000 := by decide
example : pyRound 1500000 (-6) = 2000000 := by decide
example : pyRound 2500000 (-6) = 2000000 := by decide

section Lemmas

theorem tierCount_price_rows (products : Catalog) (s : Settings) (r : ℚ) :
    tierCount (price_rows products s r) =
      products.length * s.percentages.length := by
  induction products with
  | nil => simp [tierCount, price_rows]
  | cons hd tl ih =>
      simp only [price_rows, List.map_cons, tierCount, List.sum_cons,
        List.length_map, List.length_cons] at ih ⊢
      rw [ih]; ring

theorem names_price_rows (products : Catalog) (s : Settings) (r : ℚ) :
    (price_rows products s r).map (fun row => row.1) =
      products.map (fun kv => kv.1) := by
  simp [price_rows, List.map_map, Function.comp]

theorem tiers_price_rows (products : Catalog) (s : Settings) (r : ℚ) :
    ∀ row ∈ price_rows products s r,
      row.2.2 = s.percentages.map (fun pct =>
        (pct, pyRound ((row.2.1 * s.dirham_rate * r + s.base_markup) * (1 + pct))
          s.round_to)) := by
  intro row hrow
  simp only [price_rows, List.mem_map] at hrow
  obtain ⟨item, _, rfl⟩ := hrow
  rfl

theorem lookup_dictDel (m : Catalog) (k : String) :
    (dictDel m k).lookup k = none := by
  induction m with
  | nil => rfl
  | cons kv tl ih =>
      obtain ⟨k1, v1⟩ := kv
      by_cases h : k1 = k
      · have hdrop : dictDel ((k1, v1) :: tl) k = dictDel tl k := by
          simp [dictDel, List.filter_cons, h]
        rw [hdrop]; exact ih
      · have hkeep : dictDel ((k1, v1) :: tl) k = (k1, v1) :: dictDel tl k := by
          simp [dictDel, List.filter_cons, bne_iff_ne, h]
        have h2 : (k == k1) = false := by
          simp [beq_eq_false_iff_ne]; exact fun e => h e.symm
        rw [hkeep]
        simp only [List.lookup, h2]
        exact ih

theorem splitOnChar_of_not_contains (c : Char) (cs : List Char)
    (h : cs.contains c = false) : splitOnChar c cs = [cs] := by
  induction cs with
  | nil => rfl
  | cons x xs ih =>
      by_cases hx : x = c
      · subst hx; simp at h
      · have hxs : xs.contains c = false := by
          simp only [List.contains_cons, Bool.or_eq_false_iff] at h
          exact h.2
        have hbeq : (x == c) = false := beq_eq_false_iff_ne.mpr hx
        rw [splitOnChar, ih hxs, hbeq]

theorem splitOnChar_ne_nil (c : Char) (cs : List Char) :
    splitOnChar c cs ≠ [] := by
  cases cs with
  | nil => simp [splitOnChar]
  | cons x xs =>
      simp only [splitOnChar]
      cases splitOnChar c xs <;> cases x == c <;> simp

theorem contains_iff_two_le_splitOnChar (c : Char) (cs : List Char) :
    cs.contains c = true ↔ 2 ≤ (splitOnChar c cs).length := by
  induction cs with
  | nil => simp [splitOnChar]
  | cons x xs ih =>
      by_cases hx : x = c
      · subst hx
        rcases hr : splitOnChar x xs with _ | ⟨h, t⟩
        · exact absurd hr (splitOnChar_ne_nil x xs)
        · simp [splitOnChar, hr, List.contains_cons]
          try omega
      · have hb2 : (x == c) = false := beq_eq_false_iff_ne.mpr hx
        have hb : (c == x) = false :=
          beq_eq_false_iff_ne.mpr (fun e => hx e.symm)
        rcases hr : splitOnChar c xs with _ | ⟨h, t⟩
        · exact absurd hr (splitOnChar_ne_nil c xs)
        · rw [hr] at ih
          simp only [splitOnChar, hr, hb2, List.contains_cons, hb,
            Bool.false_or, List.length_cons]
          simpa using ih

theorem rat_floor_eq_int_floor (q : ℚ) : q.floor = ⌊q⌋ := rfl

theorem roundHalfEven_half (k : ℤ) :
    roundHalfEven ((k : ℚ) + 1 / 2) = if k % 2 = 0 then k else k + 1 := by
  have hf : ((k : ℚ) + 1 / 2).floor = k := by
    rw [rat_floor_eq_int_floor, add_comm, Int.floor_add_int]
    norm_num [Int.floor_eq_iff]
  have hfrac : ((k : ℚ) + 1 / 2) - ((k : ℤ) : ℚ) = 1 / 2 := by ring
  simp only [roundHalfEven, hf, hfrac, lt_irrefl, if_false]

end Lemmas

/-- C1: for every catalog item with base price `b`, settings with rate
`d`, base markup `m`, percentages `P` and rounding `g`, and requester
rate `r`, the engine prices the item at `b * d * r + m` and produces, for
each `p` in `P` in order, the tier `round(price * (1 + p), g)`; on the
catalog `{"A": 100}` with settings `{rate: 3.67, base_markup: 20000000,
percentages: [0.03], rounding: -6}` and `r = 58500` the single tier
value is 43,000,000. -/
theorem C1_pricing_formula :
    (∀ (products : Catalog) (s : Settings) (r : ℚ),
      price_rows products s r = products.map (fun item =>
        (item.1, item.2, s.percentages.map (fun p =>
          (p, pyRound ((item.2 * s.dirham_rate * r + s.base_markup) * (1 + p))
            s.round_to)))))
    ∧ price_rows [("A", 100)]
        { dirham_rate := 3.67, base_markup := 20000000,
          percentages := [0.03], round_to := -6 } 58500 =
        [("A", 100, [(3 / 100, 43000000)])] := by
  refine ⟨fun products s r => rfl, by decide⟩

/-- C2: for a non-empty catalog the pricing table has exactly
`len(C) * len(percentages)` tier entries, rows in catalog order and tiers
in percentages order, while a numeric rate sent against the empty catalog
is answered with the explicit "nothing to price" reply rather than an
empty table. -/
theorem C2_table_shape :
    (∀ (products : Catalog) (s : Settings) (r : ℚ), products ≠ [] →
      tierCount (price_rows products s r) =
          products.length * s.percentages.length
        ∧ (price_rows products s r).map (fun row => row.1) =
            products.map (fun kv => kv.1)
        ∧ ∀ row ∈ price_rows products s r,
            row.2.2.map (fun t => t.1) = s.percentages)
    ∧ (∀ (s : Settings) (msg : String) (r : ℚ),
        pyFloatChars (removeChar ',' (trimChars msg.toList)) = some r →
        handle_all_messages ⟨[], s⟩ .idle msg = (⟨[], s⟩, .idle, .noProducts)) := by
  constructor
  · intro products s r _
    refine ⟨tierCount_price_rows products s r, names_price_rows products s r, ?_⟩
    intro row hrow
    rw [tiers_price_rows products s r row hrow, List.map_map]
    exact List.map_id s.percentages
  · intro s msg r h
    simp only [String.toList] at h
    simp [handle_all_messages, String.toList, h]

/-- Witness for C2 at the one-item catalog and at the empty catalog with
the message "58500". -/
theorem C2_table_shape_witness :
    (tierCount (price_rows [("A", 100)] DEFAULT_SETTINGS 58500) =
        ([("A", 100)] : Catalog).length * DEFAULT_SETTINGS.percentages.length)
    ∧ handle_all_messages ⟨[], DEFAULT_SETTINGS⟩ .idle "58500" =
        (⟨[], DEFAULT_SETTINGS⟩, .idle, .noProducts) :=
  ⟨(C2_table_shape.1 [("A", 100)] DEFAULT_SETTINGS 58500 (by decide)).1,
   C2_table_shape.2 DEFAULT_SETTINGS "58500" 58500 (by decide)⟩

/-- C3: tier rounding is round-half-to-even: a pre-rounding value of
exactly 1,500,000 with granularity -6 rounds to 2,000,000; at every
half-way point the rounded value is the even multiple; and every tier
value of every pricing table is produced by that same rounding
primitive. -/
theorem C3_banker_rounding :
    pyRound 1500000 (-6) = 2000000
    ∧ (∀ k : ℤ, roundHalfEven ((k : ℚ) + 1 / 2) =
        if k % 2 = 0 then k else k + 1)
    ∧ (∀ (products : Catalog) (s : Settings) (r : ℚ),
        ∀ row ∈ price_rows products s r, ∀ t ∈ row.2.2,
          t.2 = pyRound ((row.2.1 * s.dirham_rate * r + s.base_markup) * (1 + t.1))
            s.round_to) := by
  refine ⟨by decide, roundHalfEven_half, ?_⟩
  intro products s r row hrow t ht
  rw [tiers_price_rows products s r row hrow] at ht
  simp only [List.mem_map] at ht
  obtain ⟨pct, _, rfl⟩ := ht
  rfl

/-- Witness for C3 at the one-item scenario table: the single tier entry
of the row for "A" is its raw price rounded by the primitive. -/
theorem C3_banker_rounding_witness :
    (43000000 : ℚ) =
      pyRound (((100 : ℚ) * 3.67 * 58500 + 20000000) * (1 + 3 / 100)) (-6) :=
  C3_banker_rounding.2.2 [("A", 100)]
    { dirham_rate := 3.67, base_markup := 20000000,
      percentages := [0.03], round_to := -6 } 58500
    ("A", 100, [(3 / 100, 43000000)]) (by decide)
    (3 / 100, 43000000) (by decide)

/-- C4 counterexample: two renderings of the very same catalog, settings
and rate differ when the clock has moved, because `format_price_table`
appends `datetime.now()` to its output (src line 245). -/
theorem C4_counterexample :
    format_price_table "2024-01-01 10:00" [("A", 100)] DEFAULT_SETTINGS 58500 ≠
      format_price_table "2024-01-01 10:01" [("A", 100)] DEFAULT_SETTINGS 58500 := by
  decide

/-- C4 (amended): the computed pricing rows are a pure function of
(catalog, settings, rate), independent of the clock; the full rendered
output additionally carries the timestamp footer, so two renderings of
identical inputs coincide exactly when their clock readings do. -/
theorem C4_pure_up_to_timestamp :
    ∀ (t1 t2 : String) (products : Catalog) (s : Settings) (r : ℚ),
      (format_price_table t1 products s r).1 = (format_price_table t2 products s r).1
      ∧ (format_price_table t1 products s r = format_price_table t2 products s r
          ↔ t1 = t2) := by
  intro t1 t2 products s r
  refine ⟨rfl, ?_, ?_⟩
  · intro h; exact congrArg Prod.snd h
  · intro h; rw [h]

/-- C5 counterexample: a requester in state `editing "X"` with "X" absent
from the catalog sends "123": the text parses as a number, yet the state
does not return to idle, the records are untouched, and no error is
shown — neither arm of the claimed dichotomy. -/
theorem C5_counterexample :
    pyFloatChars (removeChar ',' (trimChars "123".toList)) = some 123
    ∧ handle_all_messages ⟨[], DEFAULT_SETTINGS⟩ (.editing "X") "123" =
        (⟨[], DEFAULT_SETTINGS⟩, .editing "X", .silent)
    ∧ (handle_all_messages ⟨[], DEFAULT_SETTINGS⟩ (.editing "X") "123").2.1 ≠ .idle
    ∧ (handle_all_messages
        ⟨[], DEFAULT_SETTINGS⟩ (.editing "X") "123").2.2.isParseError = false :=
  ⟨by decide, by decide, by decide, by decide⟩

/-- C5 (amended): a free-text message processed in a pending state
either parses, persists the pending mutation on the parsed value, and
returns the state to idle with a non-error reply; or fails to parse,
shows an error, and leaves the state and records unchanged; or — the one
exception — the state is `editing name` for a `name` no longer in the
catalog, in which case the message parses but the records and state are
unchanged and no reply at all is sent. -/
theorem C5_pending_state_step :
    ∀ (store : Store) (state : UserState) (msg : String),
      state ≠ .idle →
      (stepParses state msg
        ∧ (handle_all_messages store state msg).2.1 = .idle
        ∧ (handle_all_messages store state msg).2.2.isParseError = false
        ∧ persistedStep store (handle_all_messages store state msg).1 state msg)
      ∨ (¬ stepParses state msg
        ∧ (handle_all_messages store state msg).1 = store
        ∧ (handle_all_messages store state msg).2.1 = state
        ∧ (handle_all_messages store state msg).2.2.isParseError = true)
      ∨ (∃ name, state = .editing name
        ∧ stepParses state msg
        ∧ store.products.lookup name = none
        ∧ (handle_all_messages store state msg).1 = store
        ∧ (handle_all_messages store state msg).2.1 = state
        ∧ (handle_all_messages store state msg).2.2 = .silent) := by
  intro store state msg hne
  cases state with
  | idle => exact absurd rfl hne
  | adding_product =>
      rcases hsp : splitOnChar '|' (trimChars msg.toList) with
        _ | ⟨a, _ | ⟨b, _ | ⟨c, t3⟩⟩⟩
      · exact absurd hsp (splitOnChar_ne_nil '|' (trimChars msg.toList))
      · have hc : (trimChars msg.toList).contains '|' = false := by
          have h2 := contains_iff_two_le_splitOnChar '|' (trimChars msg.toList)
          rw [hsp] at h2
          simpa using h2
        have hc2 : ¬ '|' ∈ trimChars msg.data := by simpa using hc
        have hstep : handle_all_messages store .adding_product msg =
            (store, .adding_product, .usePipeFormat) := by
          simp [handle_all_messages, hc2]
        refine Or.inr (Or.inl ⟨?_, ?_, ?_, ?_⟩)
        · rintro ⟨n2, p2, v2, hs2, -⟩
          rw [hsp] at hs2; simp at hs2
        · rw [hstep]
        · rw [hstep]
        · rw [hstep]; rfl
      · have hc : (trimChars msg.toList).contains '|' = true := by
          rw [contains_iff_two_le_splitOnChar, hsp]
          simp
        have hc2 : '|' ∈ trimChars msg.data := by simpa using hc
        have hsp2 : splitOnChar '|' (trimChars msg.data) = [a, b] := hsp
        cases hpf : pyFloatChars b with
        | some p =>
            have hstep : handle_all_messages store .adding_product msg =
                ({ store with
                    products := dictSet store.products (String.mk (trimChars a)) p },
                 .idle, .productAdded (String.mk (trimChars a)) p) := by
              simp [handle_all_messages, hc2, hsp2, hpf]
            refine Or.inl ⟨⟨a, b, p, hsp, hpf⟩, ?_, ?_, ?_⟩
            · rw [hstep]
            · rw [hstep]; rfl
            · rw [hstep]
              exact ⟨a, b, p, hsp, hpf, rfl⟩
        | none =>
            have hstep : handle_all_messages store .adding_product msg =
                (store, .adding_product, .priceMustBeNumber) := by
              simp [handle_all_messages, hc2, hsp2, hpf]
            refine Or.inr (Or.inl ⟨?_, ?_, ?_, ?_⟩)
            · rintro ⟨n2, p2, v2, hs2, hpf2⟩
              rw [hsp] at hs2
              obtain ⟨rfl, rfl⟩ : a = n2 ∧ b = p2 := by simpa using hs2
              simp [hpf] at hpf2
            · rw [hstep]
            · rw [hstep]
            · rw [hstep]; rfl
      · have hc : (trimChars msg.toList).contains '|' = true := by
          rw [contains_iff_two_le_splitOnChar, hsp]
          simp
        have hc2 : '|' ∈ trimChars msg.data := by simpa using hc
        have hsp2 : splitOnChar '|' (trimChars msg.data) = a :: b :: c :: t3 := hsp
        have hstep : handle_all_messages store .adding_product msg =
            (store, .adding_product, .priceMustBeNumber) := by
          simp [handle_all_messages, hc2, hsp2]
        refine Or.inr (Or.inl ⟨?_, ?_, ?_, ?_⟩)
        · rintro ⟨n2, p2, v2, hs2, -⟩
          rw [hsp] at hs2; simp at hs2
        · rw [hstep]
        · rw [hstep]
        · rw [hstep]; rfl
  | editing product_name =>
      simp only [handle_all_messages]
      cases hpf : pyFloatChars (removeChar ',' (trimChars msg.toList)) with
      | none =>
          refine Or.inr (Or.inl ⟨?_, rfl, rfl, rfl⟩)
          rintro ⟨v, hv⟩; rw [hpf] at hv; exact Option.noConfusion hv
      | some v =>
          cases hlk : store.products.lookup product_name with
          | some old => exact Or.inl ⟨⟨v, hpf⟩, rfl, rfl, ⟨v, hpf, rfl⟩⟩
          | none =>
              exact Or.inr (Or.inr
                ⟨product_name, rfl, ⟨v, hpf⟩, hlk, rfl, rfl, rfl⟩)
  | setting_dirham =>
      simp only [handle_all_messages]
      cases hpf : pyFloatChars (trimChars msg.toList) with
      | none =>
          refine Or.inr (Or.inl ⟨?_, rfl, rfl, rfl⟩)
          rintro ⟨v, hv⟩; rw [hpf] at hv; exact Option.noConfusion hv
      | some v => exact Or.inl ⟨⟨v, hpf⟩, rfl, rfl, ⟨v, hpf, rfl⟩⟩
  | setting_markup =>
      simp only [handle_all_messages]
      cases hpf : pyFloatChars (removeChar ',' (trimChars msg.toList)) with
      | none =>
          refine Or.inr (Or.inl ⟨?_, rfl, rfl, rfl⟩)
          rintro ⟨v, hv⟩; rw [hpf] at hv; exact Option.noConfusion hv
      | some v => exact Or.inl ⟨⟨v, hpf⟩, rfl, rfl, ⟨v, hpf, rfl⟩⟩
  | setting_percentages =>
      simp only [handle_all_messages]
      cases hpf : (splitOnChar ',' (trimChars msg.toList)).mapM
          (fun p => pyFloatChars (removeChar '%' (trimChars p))) with
      | none =>
          refine Or.inr (Or.inl ⟨?_, rfl, rfl, rfl⟩)
          rintro ⟨vs, hvs⟩; rw [hpf] at hvs; exact Option.noConfusion hvs
      | some vs => exact Or.inl ⟨⟨vs, hpf⟩, rfl, rfl, ⟨vs, hpf, rfl⟩⟩

/-- Witness for C5 at the dirham-setting step with the message "5". -/
theorem C5_pending_state_step_witness :
    (stepParses .setting_dirham "5"
      ∧ (handle_all_messages ⟨[], DEFAULT_SETTINGS⟩ .setting_dirham "5").2.1 =
          .idle
      ∧ (handle_all_messages
          ⟨[], DEFAULT_SETTINGS⟩ .setting_dirham "5").2.2.isParseError = false
      ∧ persistedStep ⟨[], DEFAULT_SETTINGS⟩
          (handle_all_messages ⟨[], DEFAULT_SETTINGS⟩ .setting_dirham "5").1
          .setting_dirham "5")
    ∨ (¬ stepParses .setting_dirham "5"
      ∧ (handle_all_messages ⟨[], DEFAULT_SETTINGS⟩ .setting_dirham "5").1 =
          ⟨[], DEFAULT_SETTINGS⟩
      ∧ (handle_all_messages ⟨[], DEFAULT_SETTINGS⟩ .setting_dirham "5").2.1 =
          .setting_dirham
      ∧ (handle_all_messages
          ⟨[], DEFAULT_SETTINGS⟩ .setting_dirham "5").2.2.isParseError = true)
    ∨ (∃ name, UserState.setting_dirham = .editing name
      ∧ stepParses .setting_dirham "5"
      ∧ (⟨[], DEFAULT_SETTINGS⟩ : Store).products.lookup name = none
      ∧ (handle_all_messages ⟨[], DEFAULT_SETTINGS⟩ .setting_dirham "5").1 =
          ⟨[], DEFAULT_SETTINGS⟩
      ∧ (handle_all_messages ⟨[], DEFAULT_SETTINGS⟩ .setting_dirham "5").2.1 =
          .setting_dirham
      ∧ (handle_all_messages ⟨[], DEFAULT_SETTINGS⟩ .setting_dirham "5").2.2 =
          .silent) :=
  C5_pending_state_step ⟨[], DEFAULT_SETTINGS⟩ .setting_dirham "5" (by decide)

/-- C6: remove-user rejects, with an explicit reply, any id in the admin
set and leaves the allowed set unchanged; an id in neither set is
reported not found, also leaving the record unchanged. -/
theorem C6_remove_user :
    ∀ (users : Users) (uid : ℤ),
      (users.admins.contains uid = true →
        remove_user_cmd users uid = (users, .adminNotRemovable))
      ∧ (users.admins.contains uid = false →
          users.allowed.contains uid = false →
          remove_user_cmd users uid = (users, .userNotFound)) := by
  intro users uid
  constructor
  · intro h
    have h' : uid ∈ users.admins := by simpa using h
    simp [remove_user_cmd, h']
  · intro h1 h2
    have h1' : uid ∉ users.admins := by simpa using h1
    have h2' : uid ∉ users.allowed := by simpa using h2
    simp [remove_user_cmd, h1', h2']

/-- Witness for C6: admin id 7 is rejected; unknown id 9 is not found. -/
theorem C6_remove_user_witness :
    remove_user_cmd ⟨[5, 7], [7]⟩ 7 = (⟨[5, 7], [7]⟩, .adminNotRemovable)
    ∧ remove_user_cmd ⟨[5], [7]⟩ 9 = (⟨[5], [7]⟩, .userNotFound) :=
  ⟨(C6_remove_user ⟨[5, 7], [7]⟩ 7).1 (by decide),
   (C6_remove_user ⟨[5], [7]⟩ 9).2 (by decide) (by decide)⟩

/-- C7 counterexample: adding "X" at 10 and deleting it empties the
catalog, but deleting "X" again is silently ignored — the `del_` branch
has no else, so no "not found" is ever reported. -/
theorem C7_counterexample :
    handle_callback_del (dictSet [] "X" 10) "X" = ([], .deleted "X")
    ∧ handle_callback_del [] "X" = ([], .silent) :=
  ⟨by decide, by decide⟩

/-- C7 (amended): deleting a present name removes it from the catalog
and persists the result; deleting an absent name is a silent no-op — the
catalog is unchanged and nothing at all is reported. -/
theorem C7_delete_item :
    ∀ (products : Catalog) (name : String),
      ((products.lookup name).isSome = true →
        handle_callback_del products name = (dictDel products name, .deleted name)
        ∧ (dictDel products name).lookup name = none)
      ∧ ((products.lookup name).isSome = false →
        handle_callback_del products name = (products, .silent)) := by
  intro products name
  constructor
  · intro h
    exact ⟨by simp [handle_callback_del, h], lookup_dictDel products name⟩
  · intro h
    simp [handle_callback_del, h]

/-- Witness for C7 at the one-item catalog and the empty catalog. -/
theorem C7_delete_item_witness :
    (handle_callback_del [("X", 10)] "X" = (dictDel [("X", 10)] "X", .deleted "X")
      ∧ (dictDel [("X", 10)] "X").lookup "X" = none)
    ∧ handle_callback_del [] "X" = ([], .silent) :=
  ⟨(C7_delete_item [("X", 10)] "X").1 (by decide),
   (C7_delete_item [] "X").2 (by decide)⟩

/-- C8 counterexample: the element "3" carries no `%` suffix, yet it is
still divided by 100 — the stored percentages become [0.03], not [3]. -/
theorem C8_counterexample :
    handle_all_messages ⟨[], DEFAULT_SETTINGS⟩ .setting_percentages "3" =
      (⟨[], { DEFAULT_SETTINGS with percentages := [3 / 100] }⟩, .idle,
       .percentagesChanged [3 / 100])
    ∧ (handle_all_messages ⟨[], DEFAULT_SETTINGS⟩
        .setting_percentages "3").1.settings.percentages ≠ [3] :=
  ⟨by decide, by decide⟩

/-- C8 (amended): set-percentages splits on commas, strips whitespace
and `%` signs, and replaces the percentages with the parsed elements each
divided by 100 — whether or not the element carried a `%` suffix; when
any element fails to parse after stripping, the input is rejected and
the settings are unchanged. -/
theorem C8_set_percentages :
    ∀ (store : Store) (msg : String),
      (∀ vs, (splitOnChar ',' (trimChars msg.toList)).mapM
            (fun p => pyFloatChars (removeChar '%' (trimChars p))) = some vs →
        handle_all_messages store .setting_percentages msg =
          ({ store with settings :=
              { store.settings with percentages := vs.map (fun v => v / 100) } },
           .idle, .percentagesChanged (vs.map (fun v => v / 100))))
      ∧ ((splitOnChar ',' (trimChars msg.toList)).mapM
            (fun p => pyFloatChars (removeChar '%' (trimChars p))) = none →
        handle_all_messages store .setting_percentages msg =
          (store, .setting_percentages, .percentagesExample)) := by
  intro store msg
  constructor
  · intro vs h
    simp only [handle_all_messages, h]
  · intro h
    simp only [handle_all_messages, h]

/-- Witness for C8 at "3%, 4" (accepted, both divided by 100) and "x"
(rejected). -/
theorem C8_set_percentages_witness :
    handle_all_messages ⟨[], DEFAULT_SETTINGS⟩ .setting_percentages "3%, 4" =
      (⟨[], { DEFAULT_SETTINGS with
          percentages := ([3, 4] : List ℚ).map (fun v => v / 100) }⟩,
       .idle, .percentagesChanged (([3, 4] : List ℚ).map (fun v => v / 100)))
    ∧ handle_all_messages ⟨[], DEFAULT_SETTINGS⟩ .setting_percentages "x" =
      (⟨[], DEFAULT_SETTINGS⟩, .setting_percentages, .percentagesExample) :=
  ⟨(C8_set_percentages ⟨[], DEFAULT_SETTINGS⟩ "3%, 4").1 [3, 4] (by decide),
   (C8_set_percentages ⟨[], DEFAULT_SETTINGS⟩ "x").2 (by decide)⟩

/-- C9 counterexample: when the settings file is missing or malformed,
`load_json` hands back `DEFAULT_SETTINGS.copy()` — a shallow copy: the
returned record still shares the mutable percentages list (address 1)
with the stored default, so it is not a deep copy. -/
theorem C9_counterexample :
    (addrs DEFAULT_SETTINGS_obj).contains 2 = false
    ∧ sharesMutable (load_json none DEFAULT_SETTINGS_obj 2)
        DEFAULT_SETTINGS_obj = true := by
  constructor
  · simp [DEFAULT_SETTINGS_obj, addrs, addrsEntries, addrsList]
  · simp [load_json, shallowCopy, DEFAULT_SETTINGS_obj, sharesMutable, addrs,
      addrsEntries, addrsList]

/-- C9 (amended): `load(name)` returns the persisted record whenever one
exists and parses; otherwise it returns a shallow copy of the built-in
default — the top-level container is a fresh object, but its elements
are the very same objects as the default's — treating the failure as
non-fatal. -/
theorem C9_load_json :
    ∀ (default : PyObj) (fresh : ℕ),
      (∀ v : PyObj, load_json (some v) default fresh = v)
      ∧ (∀ a entries, default = .dict a entries →
          load_json none default fresh = .dict fresh entries)
      ∧ (∀ a elems, default = .list a elems →
          load_json none default fresh = .list fresh elems) := by
  intro d fresh
  refine ⟨fun v => rfl, ?_, ?_⟩
  · intro a entries h; subst h; rfl
  · intro a elems h; subst h; rfl

/-- Witness for C9: loading missing settings yields the default dict's
entries under a fresh top-level address. -/
theorem C9_load_json_witness :
    load_json none DEFAULT_SETTINGS_obj 2 =
      .dict 2
        [("dirham_rate", .num 3.67),
         ("base_markup", .num 20000000),
         ("percentages",
            .list 1 [.num 0.03, .num 0.04, .num 0.05, .num 0.06, .num 0.10]),
         ("round_to", .num (-6))] :=
  (C9_load_json DEFAULT_SETTINGS_obj 2).2.1 0
    [("dirham_rate", .num 3.67),
     ("base_markup", .num 20000000),
     ("percentages",
        .list 1 [.num 0.03, .num 0.04, .num 0.05, .num 0.06, .num 0.10]),
     ("round_to", .num (-6))] rfl

/-- C10: for every authorization-list record and id, membership in the
admin set implies the allowed check succeeds. -/
theorem C10_admin_implies_allowed :
    ∀ (users : Users) (user_id : ℤ),
      is_admin users user_id = true → is_allowed users user_id = true := by
  intro users uid h
  have h' : uid ∈ users.admins := by simpa [is_admin] using h
  simp [is_allowed, h']

/-- Witness for C10 at a record whose admin set holds 42 but whose
allowed set is empty. -/
theorem C10_admin_implies_allowed_witness :
    is_allowed ⟨[], [42]⟩ 42 = true :=
  C10_admin_implies_allowed ⟨[], [42]⟩ 42 (by decide)

end CameraPricerBot
